import Mathlib

/-
Shallow embedding of the CG-Illusions geometry core.

The repository renders three "impossible object" illusions with React Three
Fiber.  The algorithmic core consists of:
  * the Penrose stairs step generator (the `steps` memo of the
    `PenroseStairs` component),
  * the animated-ball waypoint path (the `pathPoints` memo of the
    `AnimatedBall` component) and its per-frame progress/interpolation
    logic (the `useFrame` callback),
  * the Penrose triangle bar generator (the `bars` memo of the
    `PenroseTriangle` component),
  * the impossible-cube placement list (the static JSX meshes of the
    `ImpossibleCube` component).

All coordinates are modelled with exact rationals (JS numbers in the source
only ever combine the rational inputs by +, -, *, /).  Angles are modelled
as a rational "raw radians" part plus a rational coefficient of pi, so that
values such as `Math.PI / 3`, the literal `9.5`, or `-Math.PI / 4.5` are all
represented exactly.  The connector dimensions of the cube involve
`Math.SQRT2`; lengths there are modelled as a rational part plus a rational
coefficient of the square root of two.  The sinusoidal bounce term of the
ball animation is transcendental; the sampler model therefore takes the
already-computed bounce value (the source's `bouncePhase * bounceAmplitude`)
as an explicit parameter, which the source adds to the displayed y
coordinate only.
-/

namespace CGIllusions

/-- A 3D vector with exact rational coordinates. -/
structure Vec3 where
  x : ℚ
  y : ℚ
  z : ℚ
  deriving DecidableEq, Repr, Inhabited

/-- An angle written as `raw + piCoeff * pi` (both parts rational). -/
structure Angle where
  raw : ℚ
  piCoeff : ℚ
  deriving DecidableEq, Repr, Inhabited

/-- An Euler rotation triple, one `Angle` per axis. -/
structure Rot3 where
  x : Angle
  y : Angle
  z : Angle
  deriving DecidableEq, Repr, Inhabited

/-- The zero rotation (meshes with no `rotation` prop in the source). -/
def noRotation : Rot3 := ⟨⟨0, 0⟩, ⟨0, 0⟩, ⟨0, 0⟩⟩

/-- `MODEL_SCALE = 1.8`, the uniform scale factor exported by
`PenroseStairs.tsx` and shared with `AnimatedBall.tsx`. -/
def MODEL_SCALE : ℚ := 18 / 10

namespace PenroseStairs

/-- One entry of the `steps` array built by the `PenroseStairs` component:
position, rotation (only the y component is ever nonzero, always a multiple
of pi), color, side index and step index. -/
structure StepPlacement where
  position : Vec3
  rotation : Rot3
  color : String
  side : ℕ
  stepIndex : ℕ
  deriving DecidableEq, Repr, Inhabited

/-- The per-side color table of `PenroseStairs` (red, cyan, blue, orange). -/
def colors : List String := ["#FF6B6B", "#4ECDC4", "#45B7D1", "#FFA07A"]

/-- The body of the step-generation loop of `PenroseStairs` for loop index
`i`.  `side = i / stepsPerSide` (0 = right, 1 = back, 2 = left, 3 = forward)
and `stepInSide = i % stepsPerSide` exactly as in the source; the rotation
is stored as its coefficient of pi (`Math.PI / 2` becomes `1/2`, and sides
1 and 3 receive the additional `Math.PI / 2` adjustment). -/
def stairStep (stepsPerSide : ℕ) (stepHeight stepDepth : ℚ)
    (showTrueGeometry : Bool) (i : ℕ) : StepPlacement :=
  let totalSteps := stepsPerSide * 4
  let unitLength := stepDepth * MODEL_SCALE
  let stepRise := stepHeight * MODEL_SCALE
  let centerOffset := ((stepsPerSide : ℚ) * unitLength) / 2
  let side := i / stepsPerSide
  let stepInSide := i % stepsPerSide
  let x : ℚ :=
    if side = 0 then (stepInSide : ℚ) * unitLength
    else if side = 1 then (stepsPerSide : ℚ) * unitLength
    else if side = 2 then ((stepsPerSide : ℚ) - (stepInSide : ℚ)) * unitLength
    else 0
  let y : ℚ :=
    if side = 0 then 0
    else if side = 1 then (stepInSide : ℚ) * unitLength
    else if side = 2 then (stepsPerSide : ℚ) * unitLength
    else ((stepsPerSide : ℚ) - (stepInSide : ℚ)) * unitLength
  let rotationY : ℚ :=
    if side = 0 then 0
    else if side = 1 then 1 / 2
    else if side = 2 then 1
    else -(1 / 2)
  let z : ℚ :=
    if showTrueGeometry then (i : ℚ) * stepRise
    else if i < totalSteps - 1 then (i : ℚ) * stepRise else 0
  let adjustedRotationY : ℚ :=
    if side = 1 ∨ side = 3 then rotationY + 1 / 2 else rotationY
  { position := ⟨x - centerOffset, y - centerOffset, z⟩
  , rotation := ⟨⟨0, 0⟩, ⟨0, adjustedRotationY⟩, ⟨0, 0⟩⟩
  , color := colors.getD side ""
  , side := side
  , stepIndex := i }

/-- The full `steps` array of `PenroseStairs`: the loop
`for (i = 0; i < totalSteps; i++)` with `totalSteps = stepsPerSide * 4`. -/
def steps (stepsPerSide : ℕ) (stepHeight stepDepth : ℚ)
    (showTrueGeometry : Bool) : List StepPlacement :=
  (List.range (stepsPerSide * 4)).map
    (stairStep stepsPerSide stepHeight stepDepth showTrueGeometry)

end PenroseStairs

namespace AnimatedBall

/-- `ballRadius = 0.3 * MODEL_SCALE`. -/
def ballRadius : ℚ := 3 / 10 * MODEL_SCALE

/-- `surfaceClearance = 0.12 * MODEL_SCALE`. -/
def surfaceClearance : ℚ := 12 / 100 * MODEL_SCALE

/-- `hoverOffset = ballRadius + surfaceClearance`. -/
def hoverOffset : ℚ := ballRadius + surfaceClearance

/-- `bounceAmplitude = 0.05 * MODEL_SCALE`. -/
def bounceAmplitude : ℚ := 5 / 100 * MODEL_SCALE

/-- The body of the path-generation loop of `AnimatedBall` for loop index
`i` (which runs over `0 ≤ i < totalSteps - 1`): the center point of step
`i`, with the side-3 forward shift and the step-top height
`i * scaledStepHeight + scaledStepHeight`.  The height branch on
`showTrueGeometry` is kept exactly as written in the source (both branches
compute the same expression). -/
def pathPoint (stepsPerSide : ℕ) (stepHeight stepWidth stepDepth : ℚ)
    (showTrueGeometry : Bool) (i : ℕ) : Vec3 :=
  let scaledStepHeight := stepHeight * MODEL_SCALE
  let scaledStepWidth := stepWidth * MODEL_SCALE
  let scaledStepDepth := stepDepth * MODEL_SCALE
  let offsetX := ((stepsPerSide : ℚ) * scaledStepWidth) / 2
  let offsetY := ((stepsPerSide : ℚ) * scaledStepDepth) / 2
  let side := i / stepsPerSide
  let stepInSide := i % stepsPerSide
  let x : ℚ :=
    if side = 0 then (stepInSide : ℚ) * scaledStepWidth + scaledStepWidth / 2
    else if side = 1 then (stepsPerSide : ℚ) * scaledStepWidth - scaledStepWidth / 2
    else if side = 2 then
      ((stepsPerSide : ℚ) - (stepInSide : ℚ)) * scaledStepWidth - scaledStepWidth / 2
    else scaledStepWidth / 2
  let y : ℚ :=
    if side = 0 then scaledStepDepth / 2
    else if side = 1 then (stepInSide : ℚ) * scaledStepDepth + scaledStepDepth / 2
    else if side = 2 then (stepsPerSide : ℚ) * scaledStepDepth + scaledStepDepth / 2
    else ((stepsPerSide : ℚ) - (stepInSide : ℚ)) * scaledStepDepth - scaledStepDepth / 2
  let x := x - offsetX
  let y := y - offsetY
  let y := if side = 3 then y - scaledStepDepth else y
  let z : ℚ :=
    if showTrueGeometry then (i : ℚ) * scaledStepHeight + scaledStepHeight
    else (i : ℚ) * scaledStepHeight + scaledStepHeight
  ⟨x, y, z⟩

/-- The synthetic final waypoint appended after the loop: the side-0
position formula at `stepInSide = 1` with height
`1 * scaledStepHeight + scaledStepHeight`.  The source pushes this point
unconditionally. -/
def syntheticPoint (stepsPerSide : ℕ) (stepHeight stepWidth stepDepth : ℚ) : Vec3 :=
  let scaledStepHeight := stepHeight * MODEL_SCALE
  let scaledStepWidth := stepWidth * MODEL_SCALE
  let scaledStepDepth := stepDepth * MODEL_SCALE
  let offsetX := ((stepsPerSide : ℚ) * scaledStepWidth) / 2
  let offsetY := ((stepsPerSide : ℚ) * scaledStepDepth) / 2
  ⟨1 * scaledStepWidth + scaledStepWidth / 2 - offsetX,
   scaledStepDepth / 2 - offsetY,
   1 * scaledStepHeight + scaledStepHeight⟩

/-- The full `pathPoints` array of `AnimatedBall`: the loop
`for (i = 0; i < totalSteps - 1; i++)` followed by the unconditional push
of the synthetic reconnection point. -/
def pathPoints (stepsPerSide : ℕ) (stepHeight stepWidth stepDepth : ℚ)
    (showTrueGeometry : Bool) : List Vec3 :=
  (List.range (stepsPerSide * 4 - 1)).map
    (pathPoint stepsPerSide stepHeight stepWidth stepDepth showTrueGeometry)
    ++ [syntheticPoint stepsPerSide stepHeight stepWidth stepDepth]

/-- `THREE.MathUtils.lerp`. -/
def lerp (a b t : ℚ) : ℚ := a + (b - a) * t

/-- The progress update of the `useFrame` callback:
`progress += delta * speed; if (progress >= pathPoints.length - 1) progress = 1`. -/
def updateProgress (pathLength : ℕ) (speed delta progress : ℚ) : ℚ :=
  let p := progress + delta * speed
  if p ≥ (pathLength : ℚ) - 1 then 1 else p

/-- The position computation of the `useFrame` callback for a (nonnegative)
progress value `p`: `index = floor(p)`, `nextIndex = (index + 1) % length`,
`t = p - index`, then component-wise lerp with the axis remap of the
rotated display frame (path height to display y, path y to negated display
z), the fixed hover offset, and the bounce value added to display y.
`bounce` stands for the source's `bouncePhase * bounceAmplitude`. -/
def samplePosition (points : List Vec3) (bounce p : ℚ) : Vec3 :=
  let index := (⌊p⌋).toNat
  let nextIndex := (index + 1) % points.length
  let t := p - (index : ℚ)
  let current := points.getD index default
  let next := points.getD nextIndex default
  ⟨lerp current.x next.x t,
   lerp current.z next.z t + hoverOffset + bounce,
   -(lerp current.y next.y t)⟩

end AnimatedBall

namespace PenroseTriangle

/-- `TRIANGLE_SCALE = 2.5`. -/
def TRIANGLE_SCALE : ℚ := 25 / 10

/-- One entry of the `bars` array built by the `PenroseTriangle`
component: position, rotation, box dimensions and color. -/
structure Segment where
  position : Vec3
  rotation : Rot3
  dimensions : Vec3
  color : String
  deriving DecidableEq, Repr, Inhabited

/-- The `bars` array of `PenroseTriangle`: three bars (bottom red, right
cyan, left blue) of an equilateral-triangle arrangement with height
`size * 0.866`; in true-geometry mode the right and left bars receive the
depth offsets `depthOffset` and `depthOffset * 2.5` with
`depthOffset = thickness * 1.5`.  The rotations `Math.PI / 3` and
`-Math.PI / 3.5` are stored as pi coefficients `1/3` and `-2/7`; the raw
radian literal `0.55` is stored in the raw part. -/
def bars (barWidth triangleSize : ℚ) (showTrueGeometry : Bool) : List Segment :=
  let scaledBarWidth := barWidth * TRIANGLE_SCALE
  let scaledTriangleSize := triangleSize * TRIANGLE_SCALE
  let size := scaledTriangleSize
  let thickness := scaledBarWidth
  let height := size * (866 / 1000)
  let depthOffset : ℚ := if showTrueGeometry then thickness * (15 / 10) else 0
  [ { position := ⟨0, height * (6 / 10), 0⟩
    , rotation := noRotation
    , dimensions := ⟨size, thickness, thickness⟩
    , color := "#FF6B6B" }
  , { position := ⟨size / 4, height * (17 / 100),
        if showTrueGeometry then depthOffset else 0⟩
    , rotation := ⟨⟨0, 0⟩, ⟨0, 0⟩, ⟨0, 1 / 3⟩⟩
    , dimensions := ⟨size, thickness, thickness⟩
    , color := "#4ECDC4" }
  , { position := ⟨-(size / (29 / 10)), height * (21 / 100),
        if showTrueGeometry then depthOffset * (25 / 10) else 0⟩
    , rotation := ⟨⟨0, 0⟩, ⟨55 / 100, 0⟩, ⟨0, -(2 / 7)⟩⟩
    , dimensions := ⟨size, thickness, thickness⟩
    , color := "#45B7D1" } ]

end PenroseTriangle

namespace ImpossibleCube

/-- `CUBE_SCALE = 3.0`. -/
def CUBE_SCALE : ℚ := 3

/-- A box side length written as `rat + sqrt2 * (square root of 2)`; the
corner-connector lengths use `scaledSize * Math.SQRT2 / 2`. -/
structure CubeLen where
  rat : ℚ
  sqrt2 : ℚ
  deriving DecidableEq, Repr, Inhabited

/-- A purely rational side length. -/
def rl (q : ℚ) : CubeLen := ⟨q, 0⟩

/-- One mesh of the `ImpossibleCube` component: world position inside the
cube group (frame-group offsets composed in), rotation, box dimensions and
color. -/
structure CubePlacement where
  position : Vec3
  rotation : Rot3
  dimensions : CubeLen × CubeLen × CubeLen
  color : String
  deriving DecidableEq, Repr, Inhabited

/-- The twelve meshes of `ImpossibleCube` in source order: the outer (back)
frame's top/right/bottom/left edges, the inner (front) frame's
top/right/bottom/left edges, then the four corner connectors (top-left,
top-right, bottom-right, bottom-left).  Frame-edge positions compose the
frame-group offsets `(-scaledSize/4, scaledSize/4, lineWidth*0.01)` and
`(scaledSize/4, -scaledSize/4, lineWidth*1.6)` with each mesh's local
offset; connector positions and the rotation constants `9.5`, `9.2`,
`±Math.PI/4` and `-Math.PI/4.5` are kept exactly as written. -/
def placements (size : ℚ) (showTrueGeometry : Bool) : List CubePlacement :=
  let scaledSize := size * CUBE_SCALE
  let lineWidth := scaledSize * (12 / 100)
  let backX := -(scaledSize / 4)
  let backY := scaledSize / 4
  let backZ := lineWidth * (1 / 100)
  let frontX := scaledSize / 4
  let frontY := -(scaledSize / 4)
  let frontZ := lineWidth * (16 / 10)
  let connLen : CubeLen := ⟨0, scaledSize / 2⟩
  let connThick := rl (lineWidth * (8 / 10))
  [ { position := ⟨backX, backY + scaledSize / 2, backZ⟩
    , rotation := noRotation
    , dimensions := (rl scaledSize, rl lineWidth, rl lineWidth)
    , color := if showTrueGeometry then "#FF6B6B" else "#404040" }
  , { position := ⟨backX + scaledSize / 2, backY, backZ⟩
    , rotation := noRotation
    , dimensions := (rl lineWidth, rl scaledSize, rl lineWidth)
    , color := if showTrueGeometry then "#FFD93D" else "#303030" }
  , { position := ⟨backX, backY - scaledSize / 2, backZ⟩
    , rotation := noRotation
    , dimensions := (rl scaledSize, rl lineWidth, rl lineWidth)
    , color := if showTrueGeometry then "#4ECDC4" else "#505050" }
  , { position := ⟨backX - scaledSize / 2, backY, backZ⟩
    , rotation := noRotation
    , dimensions := (rl lineWidth, rl scaledSize, rl lineWidth)
    , color := if showTrueGeometry then "#95E1D3" else "#606060" }
  , { position := ⟨frontX, frontY + scaledSize / 2, frontZ⟩
    , rotation := noRotation
    , dimensions := (rl scaledSize, rl lineWidth, rl lineWidth)
    , color := if showTrueGeometry then "#A0A0FF" else "#707070" }
  , { position := ⟨frontX + scaledSize / 2, frontY, frontZ⟩
    , rotation := noRotation
    , dimensions := (rl lineWidth, rl scaledSize, rl lineWidth)
    , color := if showTrueGeometry then "#FFA0FF" else "#909090" }
  , { position := ⟨frontX, frontY - scaledSize / 2, frontZ⟩
    , rotation := noRotation
    , dimensions := (rl scaledSize, rl lineWidth, rl lineWidth)
    , color := if showTrueGeometry then "#A0FFA0" else "#909090" }
  , { position := ⟨frontX - scaledSize / 2, frontY, frontZ⟩
    , rotation := noRotation
    , dimensions := (rl lineWidth, rl scaledSize, rl lineWidth)
    , color := if showTrueGeometry then "#FFA0A0" else "#909090" }
  , { position := ⟨(-(scaledSize / 4) - scaledSize / 2 + scaledSize / 4
        - scaledSize / 2) / 2,
        (scaledSize / 4 + scaledSize / 2 + -(scaledSize / 4)
        + scaledSize / 2) / 2, 0⟩
    , rotation := ⟨⟨95 / 10, 0⟩, ⟨0, 0⟩, ⟨0, 1 / 4⟩⟩
    , dimensions := (connLen, connThick, connThick)
    , color := if showTrueGeometry then "#FF0000" else "#202020" }
  , { position := ⟨(-(scaledSize / 4) + scaledSize / 2 + scaledSize / 4
        + scaledSize / 2) / 2,
        (scaledSize / 4 + scaledSize / 2 + -(scaledSize / 4)
        + scaledSize / 2) / 2, 0⟩
    , rotation := ⟨⟨0, 0⟩, ⟨0, 0⟩, ⟨0, -(1 / 4)⟩⟩
    , dimensions := (connLen, connThick, connThick)
    , color := if showTrueGeometry then "#00FF00" else "#202020" }
  , { position := ⟨(-(scaledSize / 4) + scaledSize / 2 + scaledSize / 4
        + scaledSize / 2) / 2,
        (scaledSize / 4 - scaledSize / 2 + -(scaledSize / 4)
        - scaledSize / 2) / 2, 0⟩
    , rotation := ⟨⟨92 / 10, 0⟩, ⟨0, 0⟩, ⟨0, 1 / 4⟩⟩
    , dimensions := (connLen, connThick, connThick)
    , color := if showTrueGeometry then "#0000FF" else "#202020" }
  , { position := ⟨(-(scaledSize / 4) - scaledSize / 2 + scaledSize / 4
        - scaledSize / 2) / 2,
        (scaledSize / 4 - scaledSize / 2 + -(scaledSize / 4)
        - scaledSize / 2) / 2, 0⟩
    , rotation := ⟨⟨0, 0⟩, ⟨0, 0⟩, ⟨0, -(2 / 9)⟩⟩
    , dimensions := (connLen, connThick, connThick)
    , color := if showTrueGeometry then "#FFFF00" else "#202020" } ]

end ImpossibleCube

/-! ### List indexing helpers -/

theorem getD_map_range {α : Type} (f : ℕ → α) {n i : ℕ} (h : i < n) (d : α) :
    ((List.range n).map f).getD i d = f i := by
  simp [List.getD_eq_getElem?_getD, List.getElem?_map, List.getElem?_range, h]

theorem getD_append_left {α : Type} (l m : List α) {i : ℕ} (h : i < l.length) (d : α) :
    (l ++ m).getD i d = l.getD i d := by
  simp [List.getD_eq_getElem?_getD, List.getElem?_append, h]

theorem getD_append_length {α : Type} (l m : List α) {i : ℕ} (h : i = l.length) (d : α) :
    (l ++ m).getD i d = m.getD 0 d := by
  subst h
  simp [List.getD_eq_getElem?_getD, List.getElem?_append_right (le_refl l.length)]

/-! ### Claims -/

/-- Claim C1: for every `stepsPerSide ≥ 1` the stairs generator returns
exactly `4 * stepsPerSide` placements, and in illusion mode the height (z)
of the last placement is 0 while the second-to-last is
`(totalSteps - 2) * stepRise` with `stepRise = stepHeight * MODEL_SCALE`;
in particular `stepsPerSide = 4`, `stepHeight = 0.5`, `stepDepth = 2`
yields 16 placements with `placement[15].z = 0` and
`placement[14].z = 14 * (0.5 * MODEL_SCALE)`. -/
theorem stairs_count_and_illusion_heights (stepsPerSide : ℕ)
    (stepHeight stepDepth : ℚ) (h : 1 ≤ stepsPerSide) :
    (PenroseStairs.steps stepsPerSide stepHeight stepDepth false).length
      = 4 * stepsPerSide ∧
    ((PenroseStairs.steps stepsPerSide stepHeight stepDepth false).getD
        (stepsPerSide * 4 - 1) default).position.z = 0 ∧
    ((PenroseStairs.steps stepsPerSide stepHeight stepDepth false).getD
        (stepsPerSide * 4 - 2) default).position.z
      = ((stepsPerSide * 4 - 2 : ℕ) : ℚ) * (stepHeight * MODEL_SCALE) ∧
    (PenroseStairs.steps 4 (1/2) 2 false).length = 16 ∧
    ((PenroseStairs.steps 4 (1/2) 2 false).getD 15 default).position.z = 0 ∧
    ((PenroseStairs.steps 4 (1/2) 2 false).getD 14 default).position.z
      = 14 * ((1/2) * MODEL_SCALE) := by
  refine ⟨?_, ?_, ?_, ?_, ?_, ?_⟩
  · simp [PenroseStairs.steps, Nat.mul_comm]
  · rw [PenroseStairs.steps, getD_map_range _ (by omega)]
    simp only [PenroseStairs.stairStep]
    simp only [Bool.false_eq_true, if_false]
    rw [if_neg (by omega)]
  · rw [PenroseStairs.steps, getD_map_range _ (by omega)]
    simp only [PenroseStairs.stairStep]
    simp only [Bool.false_eq_true, if_false]
    rw [if_pos (by omega)]
  · simp [PenroseStairs.steps]
  · rw [PenroseStairs.steps, getD_map_range _ (by omega)]
    simp only [PenroseStairs.stairStep]
    simp only [Bool.false_eq_true, if_false]
    rw [if_neg (by omega)]
  · rw [PenroseStairs.steps, getD_map_range _ (by omega)]
    simp only [PenroseStairs.stairStep]
    simp only [Bool.false_eq_true, if_false]
    rw [if_pos (by omega)]
    norm_num

/-- Witness for C1 at `stepsPerSide = 4`, `stepHeight = 1/2`,
`stepDepth = 2`. -/
theorem stairs_count_and_illusion_heights_witness :
    (1 : ℕ) ≤ 4 ∧
    (PenroseStairs.steps 4 (1/2) 2 false).length = 4 * 4 :=
  ⟨by norm_num, (stairs_count_and_illusion_heights 4 (1/2) 2 (by norm_num)).1⟩

/-- Claim C2 counterexample: at `stepsPerSide = 1` (with
`stepHeight = 1/2`, `stepWidth = 2`, `stepDepth = 2`) the waypoint at the
final index of the stairs path does NOT equal the waypoint at index 1 in X
and Y: waypoint 1 then lies on side 1, while the synthetic final waypoint
is computed with the side-0 formula at `stepInSide = 1`. -/
theorem path_final_reconnect_cex :
    ¬ (((AnimatedBall.pathPoints 1 (1/2) 2 2 false).getD 3 default).x
        = ((AnimatedBall.pathPoints 1 (1/2) 2 2 false).getD 1 default).x ∧
       ((AnimatedBall.pathPoints 1 (1/2) 2 2 false).getD 3 default).y
        = ((AnimatedBall.pathPoints 1 (1/2) 2 2 false).getD 1 default).y) := by
  rw [AnimatedBall.pathPoints, getD_append_length _ _ (by simp),
    getD_append_left _ _ (by simp), getD_map_range _ (by norm_num)]
  simp only [AnimatedBall.pathPoint, AnimatedBall.syntheticPoint, MODEL_SCALE]
  norm_num

/-- Claim C2 (amended): for every `stepsPerSide ≥ 1` the stairs path has
exactly `4 * stepsPerSide` waypoints, one per step index
`0 ≤ i < totalSteps - 1` with height `(i + 1) * stepRise`, plus one
synthetic final waypoint (the side-0 center formula at `stepInSide = 1`)
with height `2 * stepRise`; and when `stepsPerSide ≥ 2` the waypoint at the
final index equals the waypoint at index 1 in X and Y. -/
theorem path_length_heights_and_reconnect (stepsPerSide : ℕ)
    (stepHeight stepWidth stepDepth : ℚ) (b : Bool) (i : ℕ)
    (hs : 1 ≤ stepsPerSide) (hi : i < stepsPerSide * 4 - 1) :
    (AnimatedBall.pathPoints stepsPerSide stepHeight stepWidth stepDepth b).length
      = 4 * stepsPerSide ∧
    ((AnimatedBall.pathPoints stepsPerSide stepHeight stepWidth stepDepth b).getD
        i default).z = ((i : ℚ) + 1) * (stepHeight * MODEL_SCALE) ∧
    ((AnimatedBall.pathPoints stepsPerSide stepHeight stepWidth stepDepth b).getD
        (stepsPerSide * 4 - 1) default).z = 2 * (stepHeight * MODEL_SCALE) ∧
    (2 ≤ stepsPerSide →
      ((AnimatedBall.pathPoints stepsPerSide stepHeight stepWidth stepDepth b).getD
          (stepsPerSide * 4 - 1) default).x
        = ((AnimatedBall.pathPoints stepsPerSide stepHeight stepWidth stepDepth b).getD
            1 default).x ∧
      ((AnimatedBall.pathPoints stepsPerSide stepHeight stepWidth stepDepth b).getD
          (stepsPerSide * 4 - 1) default).y
        = ((AnimatedBall.pathPoints stepsPerSide stepHeight stepWidth stepDepth b).getD
            1 default).y) := by
  refine ⟨?_, ?_, ?_, ?_⟩
  · simp [AnimatedBall.pathPoints]
    omega
  · rw [AnimatedBall.pathPoints, getD_append_left _ _ (by simpa using hi),
      getD_map_range _ hi]
    simp only [AnimatedBall.pathPoint, ite_self]
    ring
  · rw [AnimatedBall.pathPoints, getD_append_length _ _ (by simp)]
    simp only [List.getD_cons_zero, AnimatedBall.syntheticPoint]
    ring
  · intro hs2
    have hside : 1 / stepsPerSide = 0 := Nat.div_eq_of_lt (by omega)
    have hmod : 1 % stepsPerSide = 1 := Nat.mod_eq_of_lt (by omega)
    rw [AnimatedBall.pathPoints, getD_append_length _ _ (by simp),
      getD_append_left _ _ (by simp; omega), getD_map_range _ (by omega)]
    simp only [List.getD_cons_zero, AnimatedBall.pathPoint,
      AnimatedBall.syntheticPoint, hside, hmod]
    norm_num

/-- Witness for C2 (amended) at `stepsPerSide = 2`, `stepHeight = 1/2`,
`stepWidth = 2`, `stepDepth = 2`, `i = 1`. -/
theorem path_length_heights_and_reconnect_witness :
    ((1 : ℕ) ≤ 2 ∧ 1 < 2 * 4 - 1) ∧
    (AnimatedBall.pathPoints 2 (1/2) 2 2 false).length = 4 * 2 ∧
    ((AnimatedBall.pathPoints 2 (1/2) 2 2 false).getD (2 * 4 - 1) default).x
      = ((AnimatedBall.pathPoints 2 (1/2) 2 2 false).getD 1 default).x :=
  ⟨⟨by norm_num, by norm_num⟩,
   (path_length_heights_and_reconnect 2 (1/2) 2 2 false 1 (by norm_num) (by norm_num)).1,
   ((path_length_heights_and_reconnect 2 (1/2) 2 2 false 1 (by norm_num)
      (by norm_num)).2.2.2 (by norm_num)).1⟩

/-- Claim C3: when progress advanced by `delta * speed` reaches or exceeds
`pathLength - 1` the sampler resets it to exactly 1; and the interpolated
position at progress 1 equals waypoint 1 after the axis remap (path height
to display y plus hover offset, path y to negated display z) in the planar
display axes x and z, with the bounce term affecting only display y. -/
theorem sampler_reset_and_reconnect (points : List Vec3)
    (bounce bounce2 progress delta speed : ℚ)
    (h : progress + delta * speed ≥ ((points.length : ℚ)) - 1) :
    AnimatedBall.updateProgress points.length speed delta progress = 1 ∧
    (AnimatedBall.samplePosition points bounce 1).x = (points.getD 1 default).x ∧
    (AnimatedBall.samplePosition points bounce 1).z = -((points.getD 1 default).y) ∧
    (AnimatedBall.samplePosition points bounce 1).y
      = (points.getD 1 default).z + AnimatedBall.hoverOffset + bounce ∧
    (AnimatedBall.samplePosition points bounce 1).x
      = (AnimatedBall.samplePosition points bounce2 1).x ∧
    (AnimatedBall.samplePosition points bounce 1).z
      = (AnimatedBall.samplePosition points bounce2 1).z := by
  refine ⟨?_, ?_, ?_, ?_, ?_, ?_⟩ <;>
    simp [AnimatedBall.updateProgress, AnimatedBall.samplePosition,
      AnimatedBall.lerp, h]

/-- Witness for C3 on the concrete default-parameter path (length 16),
with `progress = 15`, `delta = 1`, `speed = 2`. -/
theorem sampler_reset_and_reconnect_witness :
    AnimatedBall.updateProgress
      (AnimatedBall.pathPoints 4 (1/2) 2 2 false).length 2 1 15 = 1 :=
  (sampler_reset_and_reconnect (AnimatedBall.pathPoints 4 (1/2) 2 2 false)
    0 (9/100) 15 1 2 (by simp [AnimatedBall.pathPoints]; norm_num)).1

/-- Claim C4 evaluation: at `stepsPerSide = 0` the stairs generator
returns the empty placement list, but the path builder is NOT guarded: it
still appends the synthetic waypoint unconditionally and returns a
one-element path rather than an empty one. -/
theorem degenerate_zero_steps (stepHeight stepWidth stepDepth : ℚ) (b b2 : Bool) :
    (PenroseStairs.steps 0 stepHeight stepDepth b).length = 0 ∧
    (AnimatedBall.pathPoints 0 stepHeight stepWidth stepDepth b2).length = 1 := by
  constructor
  · simp [PenroseStairs.steps]
  · simp [AnimatedBall.pathPoints]

/-- A single progress update keeps the progress scalar inside
`[lo, pathLength - 1)` whenever `lo ≤ 1`, the path is long enough, the
delta is nonnegative and the speed positive. -/
theorem updateProgress_bounds_of_le (len : ℕ) (speed d q lo : ℚ)
    (hlo : lo ≤ 1) (hq : lo ≤ q) (hd : 0 ≤ d) (hspeed : 0 < speed)
    (hlen : 1 < (len : ℚ) - 1) (_hq2 : q < (len : ℚ) - 1) :
    lo ≤ AnimatedBall.updateProgress len speed d q ∧
    AnimatedBall.updateProgress len speed d q < (len : ℚ) - 1 := by
  simp only [AnimatedBall.updateProgress]
  by_cases hc : q + d * speed ≥ (len : ℚ) - 1
  · rw [if_pos hc]
    exact ⟨hlo, hlen⟩
  · rw [if_neg hc]
    push_neg at hc
    have hds : 0 ≤ d * speed := mul_nonneg hd (le_of_lt hspeed)
    exact ⟨by linarith, hc⟩

/-- Folding the progress update over any list of nonnegative deltas keeps
the progress scalar inside `[lo, pathLength - 1)`. -/
theorem foldl_updateProgress_bounds (len : ℕ) (speed lo : ℚ)
    (hlo : lo ≤ 1) (hspeed : 0 < speed) (hlen : 1 < (len : ℚ) - 1) :
    ∀ (deltas : List ℚ) (q : ℚ), (∀ x ∈ deltas, 0 ≤ x) →
      lo ≤ q → q < (len : ℚ) - 1 →
      lo ≤ deltas.foldl (fun a dt => AnimatedBall.updateProgress len speed dt a) q ∧
      deltas.foldl (fun a dt => AnimatedBall.updateProgress len speed dt a) q
        < (len : ℚ) - 1 := by
  intro deltas
  induction deltas with
  | nil => intro q _ h0 h1; exact ⟨h0, h1⟩
  | cons dt ds ih =>
    intro q hmem h0 h1
    simp only [List.foldl_cons]
    have hstep := updateProgress_bounds_of_le len speed dt q lo hlo h0
      (hmem dt (List.mem_cons_self dt ds)) hspeed hlen h1
    exact ih _ (fun x hx => hmem x (List.mem_cons_of_mem _ hx)) hstep.1 hstep.2

/-- Claim C5: for a path of length `4 * stepsPerSide` with
`stepsPerSide ≥ 1`, any positive speed and any sequence of nonnegative
per-frame deltas, the progress scalar starting at 0 stays in
`[0, pathLength - 1)` after every update, and once it lies in
`[1, pathLength - 1)` (steady state after the first wraparound) a further
update keeps it there. -/
theorem progress_never_escapes (stepsPerSide : ℕ) (speed : ℚ)
    (deltas : List ℚ) (p d : ℚ)
    (hs : 1 ≤ stepsPerSide) (hspeed : 0 < speed)
    (hds : ∀ x ∈ deltas, 0 ≤ x) (hd : 0 ≤ d)
    (hp1 : 1 ≤ p) (hp2 : p < ((stepsPerSide * 4 : ℕ) : ℚ) - 1) :
    (0 ≤ deltas.foldl
        (fun a dt => AnimatedBall.updateProgress (stepsPerSide * 4) speed dt a) 0 ∧
      deltas.foldl
        (fun a dt => AnimatedBall.updateProgress (stepsPerSide * 4) speed dt a) 0
        < ((stepsPerSide * 4 : ℕ) : ℚ) - 1) ∧
    (1 ≤ AnimatedBall.updateProgress (stepsPerSide * 4) speed d p ∧
      AnimatedBall.updateProgress (stepsPerSide * 4) speed d p
        < ((stepsPerSide * 4 : ℕ) : ℚ) - 1) := by
  have hsq : (1 : ℚ) ≤ (stepsPerSide : ℚ) := by exact_mod_cast hs
  have hlen : 1 < ((stepsPerSide * 4 : ℕ) : ℚ) - 1 := by push_cast; linarith
  constructor
  · exact foldl_updateProgress_bounds (stepsPerSide * 4) speed 0 (by norm_num)
      hspeed hlen deltas 0 hds (le_refl 0) (by linarith)
  · exact updateProgress_bounds_of_le (stepsPerSide * 4) speed d p 1
      (le_refl 1) hp1 hd hspeed hlen hp2

/-- Witness for C5 at `stepsPerSide = 1`, `speed = 2`,
`deltas = [1/2, 3, 1/10]`, `p = 2`, `d = 1/4`. -/
theorem progress_never_escapes_witness :
    1 ≤ AnimatedBall.updateProgress (1 * 4) 2 (1/4) 2 :=
  (progress_never_escapes 1 2 [1/2, 3, 1/10] 2 (1/4) (by norm_num) (by norm_num)
    (by intro x hx; fin_cases hx <;> norm_num) (by norm_num) (by norm_num)
    (by norm_num)).2.1

/-- Claim C6: in true-geometry mode the step heights are strictly
increasing with step index across the whole sequence (given a positive
step height). -/
theorem true_geometry_heights_strict_mono (stepsPerSide : ℕ)
    (stepHeight stepDepth : ℚ) (i j : ℕ)
    (_hs : 1 ≤ stepsPerSide) (hH : 0 < stepHeight) (hij : i < j)
    (hj : j < stepsPerSide * 4) :
    ((PenroseStairs.steps stepsPerSide stepHeight stepDepth true).getD
        i default).position.z
      < ((PenroseStairs.steps stepsPerSide stepHeight stepDepth true).getD
          j default).position.z := by
  rw [PenroseStairs.steps, getD_map_range _ (lt_trans hij hj),
    getD_map_range _ hj]
  simp only [PenroseStairs.stairStep, if_true]
  have hMS : (0 : ℚ) < MODEL_SCALE := by norm_num [CGIllusions.MODEL_SCALE]
  have hR : 0 < stepHeight * MODEL_SCALE := mul_pos hH hMS
  have hij2 : (i : ℚ) < (j : ℚ) := by exact_mod_cast hij
  exact mul_lt_mul_of_pos_right hij2 hR

/-- Witness for C6 at `stepsPerSide = 1`, `stepHeight = 1/2`,
`stepDepth = 2`, `i = 0`, `j = 3`. -/
theorem true_geometry_heights_strict_mono_witness :
    ((PenroseStairs.steps 1 (1/2) 2 true).getD 0 default).position.z
      < ((PenroseStairs.steps 1 (1/2) 2 true).getD 3 default).position.z :=
  true_geometry_heights_strict_mono 1 (1/2) 2 0 3 (by norm_num) (by norm_num)
    (by norm_num) (by norm_num)

/-- Claim C10: the stairs waypoint path is independent of the
`showTrueGeometry` flag (both height branches compute the same value), so
toggling the mode never changes the marker path. -/
theorem path_independent_of_geometry_flag (stepsPerSide : ℕ)
    (stepHeight stepWidth stepDepth : ℚ) :
    AnimatedBall.pathPoints stepsPerSide stepHeight stepWidth stepDepth true
      = AnimatedBall.pathPoints stepsPerSide stepHeight stepWidth stepDepth false := by
  simp [AnimatedBall.pathPoints, AnimatedBall.pathPoint]

/-- Claim C7: for positive `barWidth` and `triangleSize` the triangle
generator returns exactly 3 placements with three pairwise distinct fixed
colors; in illusion mode every bar has depth (z) offset 0; in true-geometry
mode the right and left bars have nonzero, mutually distinct depth
offsets. -/
theorem triangle_bars_and_depth_offsets (barWidth triangleSize : ℚ) (b : Bool)
    (hb : 0 < barWidth) (_ht : 0 < triangleSize) :
    (PenroseTriangle.bars barWidth triangleSize b).length = 3 ∧
    ((PenroseTriangle.bars barWidth triangleSize b).map
        PenroseTriangle.Segment.color) = ["#FF6B6B", "#4ECDC4", "#45B7D1"] ∧
    List.Pairwise (· ≠ ·)
      ((PenroseTriangle.bars barWidth triangleSize b).map
        PenroseTriangle.Segment.color) ∧
    ((PenroseTriangle.bars barWidth triangleSize false).getD 0
        default).position.z = 0 ∧
    ((PenroseTriangle.bars barWidth triangleSize false).getD 1
        default).position.z = 0 ∧
    ((PenroseTriangle.bars barWidth triangleSize false).getD 2
        default).position.z = 0 ∧
    ((PenroseTriangle.bars barWidth triangleSize true).getD 1
        default).position.z ≠ 0 ∧
    ((PenroseTriangle.bars barWidth triangleSize true).getD 2
        default).position.z ≠ 0 ∧
    ((PenroseTriangle.bars barWidth triangleSize true).getD 1
        default).position.z
      ≠ ((PenroseTriangle.bars barWidth triangleSize true).getD 2
          default).position.z := by
  have hmap : ((PenroseTriangle.bars barWidth triangleSize b).map
      PenroseTriangle.Segment.color) = ["#FF6B6B", "#4ECDC4", "#45B7D1"] := by
    simp [PenroseTriangle.bars]
  refine ⟨by simp [PenroseTriangle.bars], hmap, ?_, ?_, ?_, ?_, ?_, ?_, ?_⟩
  · rw [hmap]
    decide
  · simp [PenroseTriangle.bars]
  · simp [PenroseTriangle.bars]
  · simp [PenroseTriangle.bars]
  · simp only [PenroseTriangle.bars, PenroseTriangle.TRIANGLE_SCALE, if_true,
      List.getD_cons_succ, List.getD_cons_zero]
    intro heq
    linarith [heq, hb]
  · simp only [PenroseTriangle.bars, PenroseTriangle.TRIANGLE_SCALE, if_true,
      List.getD_cons_succ, List.getD_cons_zero]
    intro heq
    linarith [heq, hb]
  · simp only [PenroseTriangle.bars, PenroseTriangle.TRIANGLE_SCALE, if_true,
      List.getD_cons_succ, List.getD_cons_zero]
    intro heq
    linarith [heq, hb]

/-- Witness for C7 at `barWidth = 1`, `triangleSize = 4`, illusion mode. -/
theorem triangle_bars_and_depth_offsets_witness :
    ((0 : ℚ) < 1 ∧ (0 : ℚ) < 4) ∧
    (PenroseTriangle.bars 1 4 false).length = 3 :=
  ⟨⟨by norm_num, by norm_num⟩,
   (triangle_bars_and_depth_offsets 1 4 false (by norm_num) (by norm_num)).1⟩

/-- Claim C8: for every `size`, the cube generator yields exactly 12
placements (8 frame edges then 4 corner connectors); in illusion mode all
four connectors share the neutral grey `#202020`, which differs from every
frame-edge color; in true-geometry mode all 12 colors are pairwise
distinct. -/
theorem cube_topology_and_colors (size : ℚ) (b : Bool) :
    (ImpossibleCube.placements size b).length = 12 ∧
    (((ImpossibleCube.placements size false).drop 8).map
        ImpossibleCube.CubePlacement.color)
      = ["#202020", "#202020", "#202020", "#202020"] ∧
    "#202020" ∉ (((ImpossibleCube.placements size false).take 8).map
        ImpossibleCube.CubePlacement.color) ∧
    List.Pairwise (· ≠ ·)
      ((ImpossibleCube.placements size true).map
        ImpossibleCube.CubePlacement.color) := by
  have htake : (((ImpossibleCube.placements size false).take 8).map
      ImpossibleCube.CubePlacement.color)
      = ["#404040", "#303030", "#505050", "#606060",
         "#707070", "#909090", "#909090", "#909090"] := by
    simp [ImpossibleCube.placements]
  have htrue : ((ImpossibleCube.placements size true).map
      ImpossibleCube.CubePlacement.color)
      = ["#FF6B6B", "#FFD93D", "#4ECDC4", "#95E1D3",
         "#A0A0FF", "#FFA0FF", "#A0FFA0", "#FFA0A0",
         "#FF0000", "#00FF00", "#0000FF", "#FFFF00"] := by
    simp [ImpossibleCube.placements]
  refine ⟨by simp [ImpossibleCube.placements], by simp [ImpossibleCube.placements],
    ?_, ?_⟩
  · rw [htake]
    decide
  · rw [htrue]
    decide

/-- Claim C9: with identical parameters, the illusion-mode and
true-geometry stairs placement sequences agree at every index before the
last (same position, rotation, color, side and step index), and the final
placements differ only in the height coordinate: 0 in illusion mode versus
`(totalSteps - 1) * stepRise` in true-geometry mode. -/
theorem illusion_true_agree_except_last (stepsPerSide : ℕ)
    (stepHeight stepDepth : ℚ) (i : ℕ)
    (hs : 1 ≤ stepsPerSide) (hi : i < stepsPerSide * 4 - 1) :
    (PenroseStairs.steps stepsPerSide stepHeight stepDepth false).getD i default
      = (PenroseStairs.steps stepsPerSide stepHeight stepDepth true).getD
          i default ∧
    ((PenroseStairs.steps stepsPerSide stepHeight stepDepth false).getD
        (stepsPerSide * 4 - 1) default).position.x
      = ((PenroseStairs.steps stepsPerSide stepHeight stepDepth true).getD
          (stepsPerSide * 4 - 1) default).position.x ∧
    ((PenroseStairs.steps stepsPerSide stepHeight stepDepth false).getD
        (stepsPerSide * 4 - 1) default).position.y
      = ((PenroseStairs.steps stepsPerSide stepHeight stepDepth true).getD
          (stepsPerSide * 4 - 1) default).position.y ∧
    ((PenroseStairs.steps stepsPerSide stepHeight stepDepth false).getD
        (stepsPerSide * 4 - 1) default).rotation
      = ((PenroseStairs.steps stepsPerSide stepHeight stepDepth true).getD
          (stepsPerSide * 4 - 1) default).rotation ∧
    ((PenroseStairs.steps stepsPerSide stepHeight stepDepth false).getD
        (stepsPerSide * 4 - 1) default).color
      = ((PenroseStairs.steps stepsPerSide stepHeight stepDepth true).getD
          (stepsPerSide * 4 - 1) default).color ∧
    ((PenroseStairs.steps stepsPerSide stepHeight stepDepth false).getD
        (stepsPerSide * 4 - 1) default).side
      = ((PenroseStairs.steps stepsPerSide stepHeight stepDepth true).getD
          (stepsPerSide * 4 - 1) default).side ∧
    ((PenroseStairs.steps stepsPerSide stepHeight stepDepth false).getD
        (stepsPerSide * 4 - 1) default).stepIndex
      = ((PenroseStairs.steps stepsPerSide stepHeight stepDepth true).getD
          (stepsPerSide * 4 - 1) default).stepIndex ∧
    ((PenroseStairs.steps stepsPerSide stepHeight stepDepth false).getD
        (stepsPerSide * 4 - 1) default).position.z = 0 ∧
    ((PenroseStairs.steps stepsPerSide stepHeight stepDepth true).getD
        (stepsPerSide * 4 - 1) default).position.z
      = ((stepsPerSide * 4 - 1 : ℕ) : ℚ) * (stepHeight * MODEL_SCALE) := by
  have hfalse : (PenroseStairs.steps stepsPerSide stepHeight stepDepth
      false).getD (stepsPerSide * 4 - 1) default
      = PenroseStairs.stairStep stepsPerSide stepHeight stepDepth false
          (stepsPerSide * 4 - 1) := by
    rw [PenroseStairs.steps]
    exact getD_map_range _ (by omega) _
  have htrue : (PenroseStairs.steps stepsPerSide stepHeight stepDepth
      true).getD (stepsPerSide * 4 - 1) default
      = PenroseStairs.stairStep stepsPerSide stepHeight stepDepth true
          (stepsPerSide * 4 - 1) := by
    rw [PenroseStairs.steps]
    exact getD_map_range _ (by omega) _
  constructor
  · rw [PenroseStairs.steps, PenroseStairs.steps,
      getD_map_range _ (by omega), getD_map_range _ (by omega)]
    simp only [PenroseStairs.stairStep, Bool.false_eq_true, if_false, if_true]
    rw [if_pos hi]
  · rw [hfalse, htrue]
    simp only [PenroseStairs.stairStep, Bool.false_eq_true, if_false, if_true]
    rw [if_neg (by omega)]
    simp

/-- Witness for C9 at `stepsPerSide = 1`, `stepHeight = 1/2`,
`stepDepth = 2`, `i = 0`. -/
theorem illusion_true_agree_except_last_witness :
    ((1 : ℕ) ≤ 1 ∧ 0 < 1 * 4 - 1) ∧
    (PenroseStairs.steps 1 (1/2) 2 false).getD 0 default
      = (PenroseStairs.steps 1 (1/2) 2 true).getD 0 default :=
  ⟨⟨by norm_num, by norm_num⟩,
   (illusion_true_agree_except_last 1 (1/2) 2 0 (by norm_num) (by norm_num)).1⟩

end CGIllusions
